import Mathlib

/-!
Verification of the bower-npm-resolver core.

This file gives a shallow embedding of the two modules under scrutiny:

* `src/npm-utils.js` — a promise-returning wrapper around the npm command
  interface exposing `proxy()`, `releases(pkg)` and `tarball(pkg, version)`.
  Registry replies are JSON-like JavaScript values; a promise is embedded as
  an `Except` value, rejected either with the npm error handed to the
  callback or with the JavaScript `TypeError` raised when a property of
  `undefined` is accessed inside a `.then` continuation.

* `src/download.js` — the file fetcher.  Its implementation is not part of
  the given sources (only its test is), so it is modelled from the
  specification text, as marked on the definition below.

JavaScript strings are compared by code units; for the values involved here
this coincides with the lexicographic order on the underlying character
list, which is what `JsLe` denotes.
-/

/-- A JSON-like JavaScript value as delivered by the npm view command:
`undefined`, a string, an array, or an object given as an association list
of fields.  An object is well-formed when its field names are distinct;
theorems about object replies carry that hypothesis. -/
inductive JSVal where
  | undef : JSVal
  | str : String → JSVal
  | arr : List JSVal → JSVal
  | obj : List (String × JSVal) → JSVal

/-- The test `Array.isArray(data)` used by `releases`. -/
def JSVal.isArray : JSVal → Bool
  | .arr _ => true
  | _ => false

/-- JavaScript truthiness restricted to the modelled values: `undefined`
and the empty string are falsy, every other modelled value is truthy. -/
def JSVal.truthy : JSVal → Bool
  | .undef => false
  | .str s => !s.data.isEmpty
  | .arr _ => true
  | .obj _ => true

/-- Why a promise from npm-utils is rejected: either the error object the
npm callback produced (carried verbatim as a string payload), or a
JavaScript TypeError thrown inside a `.then` continuation when a property
of `undefined` is accessed. -/
inductive RejectReason where
  | npmError : String → RejectReason
  | typeError : RejectReason
deriving DecidableEq

/-- JavaScript string order (code-unit lexicographic): the order used by
`Array.prototype.sort()` on string keys, given by the lexicographic order
on the character lists. -/
def JsLe (a b : String) : Prop := a.data ≤ b.data

instance : DecidableRel JsLe := fun a b => (inferInstance : Decidable (a.data ≤ b.data))

instance : IsTotal String JsLe := ⟨fun a b => le_total a.data b.data⟩

instance : IsTrans String JsLe := ⟨fun _ _ _ h1 h2 => le_trans h1 h2⟩

/-- Field lookup on an object: the value of the first field with the given
name, `undefined` when absent — JavaScript property access on an object. -/
def lookupField : List (String × JSVal) → String → JSVal
  | [], _ => .undef
  | (k, v) :: rest, key => if k = key then v else lookupField rest key

/-- Digit-list to number, for array-index property keys. -/
def digitsToNat : List Char → Nat → Nat
  | [], acc => acc
  | c :: cs, acc => digitsToNat cs (10 * acc + (c.toNat - 48))

/-- Interprets a property key as an array index when it is all digits. -/
def keyToIndex? (key : String) : Option Nat :=
  if !key.data.isEmpty && key.data.all Char.isDigit then
    some (digitsToNat key.data 0)
  else
    none

/-- JavaScript property access `v[key]`: throws TypeError on `undefined`,
indexes strings and arrays by numeric keys, looks fields up on objects, and
yields `undefined` for any absent property. -/
def jsGet : JSVal → String → Except RejectReason JSVal
  | .undef, _ => .error .typeError
  | .str s, key =>
    .ok (match keyToIndex? key with
         | some i =>
           match s.data[i]? with
           | some c => .str (String.mk [c])
           | none => .undef
         | none => .undef)
  | .arr xs, key =>
    .ok (match keyToIndex? key with
         | some i => (xs[i]?).getD .undef
         | none => .undef)
  | .obj fields, key => .ok (lookupField fields key)

/-- `Object.keys(o)`: field names of an object, index strings for arrays
and strings, and a TypeError for `undefined`. -/
def jsKeys : JSVal → Except RejectReason (List String)
  | .undef => .error .typeError
  | .str s => .ok ((List.range s.data.length).map (fun i => Nat.repr i))
  | .arr xs => .ok ((List.range xs.length).map (fun i => Nat.repr i))
  | .obj fields => .ok (fields.map Prod.fst)

/-- `getLastKey(o)` from npm-utils: take `Object.keys(o)`, sort them (the
default JavaScript sort on strings), and return the element at index
`keys.length - 1` — `undefined` (here `none`) when there are no keys. -/
def getLastKey (o : JSVal) : Except RejectReason (Option String) := do
  let keys ← jsKeys o
  pure (List.insertionSort JsLe keys).getLast?

/-- Bracket access `v[k]` where `k` may be `undefined`: JavaScript coerces
the key `undefined` to the string "undefined" before the lookup. -/
def jsIndex (v : JSVal) (k : Option String) : Except RejectReason JSVal :=
  jsGet v (k.getD "undefined")

/-- The npm collaborator as seen by npm-utils: the outcome of `npm.load`
(an error, or success giving access to `data.config.get`) and the reply of
`npm.commands.view` for given arguments. -/
structure NpmEnv where
  loadResult : Option String
  configGet : String → JSVal
  view : List String → Except String JSVal

/-- `wrapCallback`: turns the npm `(err, data)` callback convention into
the promise outcome — reject with `err` when present, resolve with `data`
otherwise. -/
def wrapCallback : Except String JSVal → Except RejectReason JSVal
  | .error e => .error (.npmError e)
  | .ok data => .ok data

/-- `execViewCommand(args)`: load npm (rejecting with the load error when
that fails), then run the view command and settle the promise through
`wrapCallback`. -/
def execViewCommand (env : NpmEnv) (args : List String) : Except RejectReason JSVal :=
  match env.loadResult with
  | some e => .error (.npmError e)
  | none => wrapCallback (env.view args)

/-- `proxy()`: load npm and resolve with an object holding exactly the two
configuration entries `proxy` and `https-proxy`. -/
def proxy (env : NpmEnv) : Except RejectReason JSVal :=
  match env.loadResult with
  | some e => .error (.npmError e)
  | none =>
    .ok (.obj [("proxy", env.configGet "proxy"),
               ("https-proxy", env.configGet "https-proxy")])

/-- `releases(pkg)`: view `[pkg, "versions"]`; return the reply as-is when
it is an array, otherwise unwrap `data[getLastKey(data)].versions`. -/
def releases (env : NpmEnv) (pkg : String) : Except RejectReason JSVal := do
  let data ← execViewCommand env [pkg, "versions"]
  if data.isArray then
    pure data
  else do
    let mostRecentVersion ← getLastKey data
    let entry ← jsIndex data mostRecentVersion
    jsGet entry "versions"

/-- `tarball(pkg, version)`: view `[pkg + "@" + version, "dist.tarball"]`;
when the reply's own `dist.tarball` property is truthy return it, otherwise
unwrap `data[getLastKey(data)]["dist.tarball"]`. -/
def tarball (env : NpmEnv) (pkg version : String) : Except RejectReason JSVal := do
  let data ← execViewCommand env [pkg ++ "@" ++ version, "dist.tarball"]
  let direct ← jsGet data "dist.tarball"
  if direct.truthy then
    pure direct
  else do
    let mostRecentVersion ← getLastKey data
    let entry ← jsIndex data mostRecentVersion
    jsGet entry "dist.tarball"

/-- Outcome of issuing the HTTP request for a URL: a network-level failure,
or a reply with a status code. -/
inductive HttpReply where
  | netFailure : HttpReply
  | reply : Nat → HttpReply

/-- The environment the fetcher runs against: what the HTTP client answers
for each URL, and whether a destination directory accepts the file write. -/
structure DownloadWorld where
  http : String → HttpReply
  dirWritable : String → Bool

/-- The failure surfaced by the fetcher. -/
inductive DownloadError where
  | network : DownloadError
  | httpStatus : Nat → DownloadError
  | writeFailure : DownloadError
deriving DecidableEq

/-- Final path segment of a URL: the characters after the last slash. -/
def urlBasename (url : String) : String :=
  String.mk ((url.data.reverse.takeWhile (fun c => c ≠ '/')).reverse)

/-- Whether the pattern is an initial run of the character list. -/
def leadsWith : List Char → List Char → Bool
  | [], _ => true
  | _ :: _, [] => false
  | c :: cs, d :: ds => c = d && leadsWith cs ds

/-- Whether a URL is an absolute HTTP or HTTPS URL. -/
def isHttpUrl (url : String) : Bool :=
  leadsWith "http://".data url.data || leadsWith "https://".data url.data

/-- Whether an HTTP status code counts as success. -/
def isSuccessStatus (status : Nat) : Bool := 200 ≤ status && status < 300

/-- Modelled from the spec: the implementation of `fetch` in
`src/download.js` is absent from the given sources (only its test is
present), so this follows the specification text for the Fetcher — derive
the output file name from the URL's final path segment, stream the body to
that file inside the destination directory and resolve with the resulting
path; fail with a `DownloadError` on network failure, non-success HTTP
status, or local write failure, in a single attempt. -/
def fetch (w : DownloadWorld) (url destinationDir : String) : Except DownloadError String :=
  match w.http url with
  | .netFailure => .error .network
  | .reply status =>
    if isSuccessStatus status then
      if w.dirWritable destinationDir then
        .ok (destinationDir ++ "/" ++ urlBasename url)
      else
        .error .writeFailure
    else
      .error (.httpStatus status)

/-- A registry environment that answers every view query with the given
reply; used to instantiate theorems at concrete inputs. -/
def mkEnv (reply : JSVal) : NpmEnv :=
  { loadResult := none, configGet := fun _ => .undef, view := fun _ => .ok reply }

/-! ### Facts about the key sort and field lookup -/

theorem jsLe_refl (a : String) : JsLe a a := le_refl a.data

theorem jsLe_antisymm {a b : String} (h1 : JsLe a b) (h2 : JsLe b a) : a = b :=
  String.ext (le_antisymm h1 h2)

theorem sorted_le_getLast : ∀ (l : List String), l.Sorted JsLe → ∀ x ∈ l,
    ∃ m, l.getLast? = some m ∧ JsLe x m ∧ m ∈ l
  | [], _, x, hx => absurd hx (by simp)
  | [a], _, x, hx => by
    obtain rfl : x = a := by simpa using hx
    exact ⟨x, rfl, jsLe_refl x, by simp⟩
  | a :: b :: t, hs, x, hx => by
    have hcons := List.sorted_cons.mp hs
    rcases List.mem_cons.mp hx with rfl | hx'
    · obtain ⟨m, hm, _, hmem⟩ := sorted_le_getLast (b :: t) hcons.2 b (by simp)
      exact ⟨m, by rw [List.getLast?_cons_cons]; exact hm,
             hcons.1 m hmem, List.mem_cons_of_mem _ hmem⟩
    · obtain ⟨m, hm, hxm, hmem⟩ := sorted_le_getLast (b :: t) hcons.2 x hx'
      exact ⟨m, by rw [List.getLast?_cons_cons]; exact hm, hxm,
             List.mem_cons_of_mem _ hmem⟩

theorem sorted_getLast_of_max (l : List String) (k : String)
    (hs : l.Sorted JsLe) (hk : k ∈ l) (hmax : ∀ x ∈ l, JsLe x k) :
    l.getLast? = some k := by
  obtain ⟨m, hm, hkm, hmem⟩ := sorted_le_getLast l hs k hk
  rw [hm, jsLe_antisymm (hmax m hmem) hkm]

theorem insertionSort_getLast_of_max (keys : List String) (k : String)
    (hk : k ∈ keys) (hmax : ∀ x ∈ keys, JsLe x k) :
    (List.insertionSort JsLe keys).getLast? = some k := by
  apply sorted_getLast_of_max
  · exact List.sorted_insertionSort JsLe keys
  · exact (List.perm_insertionSort JsLe keys).mem_iff.mpr hk
  · intro x hx
    exact hmax x ((List.perm_insertionSort JsLe keys).mem_iff.mp hx)

theorem getLastKey_obj_of_max (fields : List (String × JSVal)) (k : String)
    (hk : k ∈ fields.map Prod.fst) (hmax : ∀ x ∈ fields.map Prod.fst, JsLe x k) :
    getLastKey (.obj fields) = .ok (some k) := by
  show Except.ok (List.insertionSort JsLe (fields.map Prod.fst)).getLast? =
    Except.ok (some k)
  rw [insertionSort_getLast_of_max _ k hk hmax]

theorem lookupField_of_mem : ∀ (fields : List (String × JSVal)) (k : String) (v : JSVal),
    (fields.map Prod.fst).Nodup → (k, v) ∈ fields → lookupField fields k = v
  | [], _, _, _, h => absurd h (by simp)
  | (k', v') :: rest, k, v, hnd, hmem => by
    rcases List.mem_cons.mp hmem with heq | hmem'
    · obtain ⟨rfl, rfl⟩ := Prod.mk.injEq k v k' v' ▸ heq
      simp [lookupField]
    · have hin : k ∈ rest.map Prod.fst := List.mem_map_of_mem Prod.fst hmem'
      have hne : k' ≠ k := by
        rintro rfl
        exact (List.nodup_cons.mp (by simpa using hnd)).1 hin
      simp only [lookupField, if_neg hne]
      exact lookupField_of_mem rest k v (List.nodup_cons.mp (by simpa using hnd)).2 hmem'

/-! ### Claim theorems -/

/-- C3: when the view reply for [pkg, "versions"] is already a plain array,
releases resolves with exactly that array, unchanged and in order. -/
theorem releases_array_reply (env : NpmEnv) (pkg : String) (xs : List JSVal)
    (hload : env.loadResult = none)
    (hview : env.view [pkg, "versions"] = .ok (.arr xs)) :
    releases env pkg = .ok (.arr xs) := by
  simp [releases, execViewCommand, wrapCallback, hload, hview, JSVal.isArray,
        bind, Except.bind, pure, Except.pure]

theorem releases_array_reply_witness :
    releases (mkEnv (.arr [.str "1.0.0", .str "1.1.0"])) "bower" =
      .ok (.arr [.str "1.0.0", .str "1.1.0"]) :=
  releases_array_reply (mkEnv (.arr [.str "1.0.0", .str "1.1.0"])) "bower"
    [.str "1.0.0", .str "1.1.0"] rfl rfl

/-- C1: when the view reply for [pkg, "versions"] is a non-array object
keyed by version strings, releases resolves with the `versions` field of
the entry whose key is lexicographically last among the object's keys. -/
theorem releases_nested_reply (env : NpmEnv) (pkg : String)
    (fields : List (String × JSVal)) (k : String) (entry v : JSVal)
    (hload : env.loadResult = none)
    (hview : env.view [pkg, "versions"] = .ok (.obj fields))
    (hnodup : (fields.map Prod.fst).Nodup)
    (hmem : (k, entry) ∈ fields)
    (hmax : ∀ x ∈ fields.map Prod.fst, JsLe x k)
    (hver : jsGet entry "versions" = .ok v) :
    releases env pkg = .ok v := by
  have hkey : getLastKey (.obj fields) = .ok (some k) :=
    getLastKey_obj_of_max fields k (List.mem_map_of_mem Prod.fst hmem) hmax
  have hlook : lookupField fields k = entry :=
    lookupField_of_mem fields k entry hnodup hmem
  have hidx : jsIndex (.obj fields) (some k) = .ok entry := by
    simp [jsIndex, jsGet, hlook]
  simp [releases, execViewCommand, wrapCallback, hload, hview, JSVal.isArray,
        bind, Except.bind, pure, Except.pure, hkey, hidx, hver]

theorem releases_nested_reply_witness :
    releases (mkEnv (.obj
      [("1.0.0", .obj [("versions", .arr [.str "1.0.0"])]),
       ("1.1.0", .obj [("versions", .arr [.str "1.0.0", .str "1.1.0"])]),
       ("1.7.7", .obj [("versions", .arr [.str "1.0.0", .str "1.1.0", .str "1.7.7"])])]))
      "bower" =
      .ok (.arr [.str "1.0.0", .str "1.1.0", .str "1.7.7"]) :=
  releases_nested_reply _ "bower" _ "1.7.7"
    (.obj [("versions", .arr [.str "1.0.0", .str "1.1.0", .str "1.7.7"])])
    (.arr [.str "1.0.0", .str "1.1.0", .str "1.7.7"])
    rfl rfl (by decide)
    (by simp)
    (by decide) rfl

/-- C2: when the view reply has no `dist.tarball` entry of its own but is an
object keyed by version strings whose entries carry a nested `dist.tarball`
field, tarball resolves with the `dist.tarball` value of the entry whose
key is lexicographically last among the object's keys. -/
theorem tarball_nested_reply (env : NpmEnv) (pkg version : String)
    (fields : List (String × JSVal)) (k : String) (entry v : JSVal)
    (hload : env.loadResult = none)
    (hview : env.view [pkg ++ "@" ++ version, "dist.tarball"] = .ok (.obj fields))
    (hnodirect : lookupField fields "dist.tarball" = .undef)
    (hnodup : (fields.map Prod.fst).Nodup)
    (hmem : (k, entry) ∈ fields)
    (hmax : ∀ x ∈ fields.map Prod.fst, JsLe x k)
    (htb : jsGet entry "dist.tarball" = .ok v) :
    tarball env pkg version = .ok v := by
  have hkey : getLastKey (.obj fields) = .ok (some k) :=
    getLastKey_obj_of_max fields k (List.mem_map_of_mem Prod.fst hmem) hmax
  have hlook : lookupField fields k = entry :=
    lookupField_of_mem fields k entry hnodup hmem
  have hidx : jsIndex (.obj fields) (some k) = .ok entry := by
    simp [jsIndex, jsGet, hlook]
  have hdirect : jsGet (.obj fields) "dist.tarball" = .ok .undef := by
    simp [jsGet, hnodirect]
  simp [tarball, execViewCommand, wrapCallback, hload, hview,
        bind, Except.bind, pure, Except.pure, hdirect, JSVal.truthy, hkey, hidx, htb]

theorem tarball_nested_reply_witness :
    tarball (mkEnv (.obj
      [("1.7.7", .obj [("dist.tarball",
        .str "http://registry.npmjs.org/bower/-/bower-1.7.7.tgz")])]))
      "bower" "1.7.7" =
      .ok (.str "http://registry.npmjs.org/bower/-/bower-1.7.7.tgz") :=
  tarball_nested_reply _ "bower" "1.7.7" _ "1.7.7"
    (.obj [("dist.tarball", .str "http://registry.npmjs.org/bower/-/bower-1.7.7.tgz")])
    (.str "http://registry.npmjs.org/bower/-/bower-1.7.7.tgz")
    rfl rfl rfl (by decide) (by simp) (by decide) rfl

/-- C4 counterexample: a reply object that does directly contain the key
`dist.tarball`, bound to the falsy empty string; tarball does not resolve
with that value as the claim requires (it falls to the nested-shape path
and resolves with `undefined`). -/
theorem tarball_direct_key_counterexample :
    tarball (mkEnv (.obj [("dist.tarball", JSVal.str "")])) "bower" "1.7.7" ≠
      Except.ok (JSVal.str "") := by
  have h : tarball (mkEnv (.obj [("dist.tarball", JSVal.str "")])) "bower" "1.7.7" =
      Except.ok JSVal.undef := rfl
  rw [h]
  intro hc
  exact JSVal.noConfusion (Except.ok.inj hc)

/-- C4 (amended): when the view reply is an object whose own `dist.tarball`
entry holds a truthy value (such as a non-empty URL string), tarball
resolves with exactly that value, without taking the nested-shape path. -/
theorem tarball_direct_truthy (env : NpmEnv) (pkg version : String)
    (fields : List (String × JSVal)) (v : JSVal)
    (hload : env.loadResult = none)
    (hview : env.view [pkg ++ "@" ++ version, "dist.tarball"] = .ok (.obj fields))
    (hdt : lookupField fields "dist.tarball" = v)
    (htruthy : v.truthy = true) :
    tarball env pkg version = .ok v := by
  have hdirect : jsGet (.obj fields) "dist.tarball" = .ok v := by
    simp [jsGet, hdt]
  simp [tarball, execViewCommand, wrapCallback, hload, hview,
        bind, Except.bind, pure, Except.pure, hdirect, htruthy]

theorem tarball_direct_truthy_witness :
    tarball (mkEnv (.obj [("dist.tarball",
        .str "http://registry.npmjs.org/bower/-/bower-1.7.7.tgz")]))
      "bower" "1.7.7" =
      .ok (.str "http://registry.npmjs.org/bower/-/bower-1.7.7.tgz") :=
  tarball_direct_truthy _ "bower" "1.7.7" _
    (.str "http://registry.npmjs.org/bower/-/bower-1.7.7.tgz")
    rfl rfl rfl (by decide)

/-- C9: the flat-shape branch of tarball is selected by the truthiness of
the reply's own `dist.tarball` value, not by the key's presence — whenever
that value is falsy, tarball falls through to the nested-shape path and
yields exactly the reply's entry at the lexicographically last key,
projected at `dist.tarball`. -/
theorem tarball_branch_on_truthiness (env : NpmEnv) (pkg version : String)
    (fields : List (String × JSVal)) (k : String)
    (hload : env.loadResult = none)
    (hview : env.view [pkg ++ "@" ++ version, "dist.tarball"] = .ok (.obj fields))
    (hfalsy : (lookupField fields "dist.tarball").truthy = false)
    (hk : k ∈ fields.map Prod.fst)
    (hmax : ∀ x ∈ fields.map Prod.fst, JsLe x k) :
    tarball env pkg version = jsGet (lookupField fields k) "dist.tarball" := by
  have hkey : getLastKey (.obj fields) = .ok (some k) :=
    getLastKey_obj_of_max fields k hk hmax
  have hidx : jsIndex (.obj fields) (some k) = .ok (lookupField fields k) := by
    simp [jsIndex, jsGet]
  have hdirect : jsGet (.obj fields) "dist.tarball" =
      .ok (lookupField fields "dist.tarball") := by
    simp [jsGet]
  simp [tarball, execViewCommand, wrapCallback, hload, hview,
        bind, Except.bind, pure, Except.pure, hdirect, hfalsy, hkey, hidx]

theorem tarball_branch_on_truthiness_witness :
    tarball (mkEnv (.obj
      [("dist.tarball", JSVal.str ""),
       ("1.7.7", .obj [("dist.tarball", .str "http://u")])])) "bower" "1.7.7" =
      jsGet (lookupField
        [("dist.tarball", JSVal.str ""),
         ("1.7.7", .obj [("dist.tarball", .str "http://u")])] "dist.tarball")
        "dist.tarball" := by
  exact tarball_branch_on_truthiness
    (mkEnv (.obj [("dist.tarball", JSVal.str ""),
                  ("1.7.7", .obj [("dist.tarball", .str "http://u")])]))
    "bower" "1.7.7"
    [("dist.tarball", JSVal.str ""),
     ("1.7.7", .obj [("dist.tarball", .str "http://u")])]
    "dist.tarball" rfl rfl (by decide) (by decide) (by decide)

/-- C5: when configuration loading succeeds, proxy resolves with an object
holding exactly the two keys `proxy` and `https-proxy`, in that order,
whose values are the registry configuration's values for those settings
(`undefined` exactly when the corresponding setting is unset). -/
theorem proxy_two_keys (env : NpmEnv) (hload : env.loadResult = none) :
    ∃ o, proxy env = .ok (.obj o) ∧
      o.map Prod.fst = ["proxy", "https-proxy"] ∧
      lookupField o "proxy" = env.configGet "proxy" ∧
      lookupField o "https-proxy" = env.configGet "https-proxy" := by
  refine ⟨[("proxy", env.configGet "proxy"),
           ("https-proxy", env.configGet "https-proxy")], ?_, rfl, ?_, ?_⟩
  · simp [proxy, hload]
  · simp [lookupField]
  · simp [lookupField]

theorem proxy_two_keys_witness :
    ∃ o, proxy (mkEnv .undef) = .ok (.obj o) ∧
      o.map Prod.fst = ["proxy", "https-proxy"] ∧
      lookupField o "proxy" = (mkEnv .undef).configGet "proxy" ∧
      lookupField o "https-proxy" = (mkEnv .undef).configGet "https-proxy" :=
  proxy_two_keys (mkEnv .undef) rfl

/-- C6: a failure of the underlying npm interaction is propagated to the
caller unchanged — if npm fails to load, releases and tarball reject with
that load error, and if the view command itself rejects, the view error
becomes the rejection, never a resolved value. -/
theorem view_errors_propagate (env : NpmEnv) (pkg version e : String) :
    (env.loadResult = some e →
      releases env pkg = .error (.npmError e) ∧
      tarball env pkg version = .error (.npmError e)) ∧
    (env.loadResult = none →
      (env.view [pkg, "versions"] = .error e →
        releases env pkg = .error (.npmError e)) ∧
      (env.view [pkg ++ "@" ++ version, "dist.tarball"] = .error e →
        tarball env pkg version = .error (.npmError e))) := by
  constructor
  · intro h
    constructor <;>
      simp [releases, tarball, execViewCommand, h, bind, Except.bind]
  · intro h
    constructor <;> intro hv <;>
      simp [releases, tarball, execViewCommand, wrapCallback, h, hv,
            bind, Except.bind]

theorem view_errors_propagate_witness :
    releases ⟨some "load failed", fun _ => .undef, fun _ => .ok .undef⟩ "bower" =
      .error (.npmError "load failed") ∧
    tarball ⟨none, fun _ => .undef, fun _ => .error "404 not found"⟩ "bower" "1.7.7" =
      .error (.npmError "404 not found") :=
  ⟨((view_errors_propagate
      ⟨some "load failed", fun _ => .undef, fun _ => .ok .undef⟩
      "bower" "1.7.7" "load failed").1 rfl).1,
   ((view_errors_propagate
      ⟨none, fun _ => .undef, fun _ => .error "404 not found"⟩
      "bower" "1.7.7" "404 not found").2 rfl).2 rfl⟩

/-- C10: on an empty object reply, getLastKey yields `undefined`, so the
subsequent property access fails and the promise rejects: releases and the
nested-shape path of tarball reject with a TypeError instead of resolving. -/
theorem empty_reply_rejects (env : NpmEnv) (pkg version : String)
    (hload : env.loadResult = none) :
    (env.view [pkg, "versions"] = .ok (.obj []) →
      releases env pkg = .error .typeError) ∧
    (env.view [pkg ++ "@" ++ version, "dist.tarball"] = .ok (.obj []) →
      tarball env pkg version = .error .typeError) := by
  constructor <;> intro hv <;>
    simp only [releases, tarball, execViewCommand, wrapCallback, hload, hv] <;>
    rfl

theorem empty_reply_rejects_witness :
    releases (mkEnv (.obj [])) "bower" = .error .typeError ∧
    tarball (mkEnv (.obj [])) "bower" "1.7.7" = .error .typeError :=
  ⟨(empty_reply_rejects (mkEnv (.obj [])) "bower" "1.7.7" rfl).1 rfl,
   (empty_reply_rejects (mkEnv (.obj [])) "bower" "1.7.7" rfl).2 rfl⟩

/-- C7: for an absolute HTTP(S) URL whose request succeeds and an existing
writable destination directory, fetch resolves with the path obtained by
joining the destination directory with the final path segment of the URL. -/
theorem fetch_success_path (w : DownloadWorld) (url destinationDir : String)
    (status : Nat)
    (hurl : isHttpUrl url = true)
    (hreply : w.http url = .reply status)
    (hstatus : isSuccessStatus status = true)
    (hdir : w.dirWritable destinationDir = true) :
    fetch w url destinationDir = .ok (destinationDir ++ "/" ++ urlBasename url) := by
  simp [fetch, hreply, hstatus, hdir]

theorem fetch_success_path_witness :
    fetch ⟨fun _ => .reply 200, fun _ => true⟩
      "http://registry.npmjs.org/bower/-/bower-1.7.7.tgz" "/tmp-dir" =
      .ok ("/tmp-dir" ++ "/" ++
        urlBasename "http://registry.npmjs.org/bower/-/bower-1.7.7.tgz") ∧
    urlBasename "http://registry.npmjs.org/bower/-/bower-1.7.7.tgz" =
      "bower-1.7.7.tgz" :=
  ⟨fetch_success_path ⟨fun _ => .reply 200, fun _ => true⟩
    "http://registry.npmjs.org/bower/-/bower-1.7.7.tgz" "/tmp-dir" 200
    (by decide) rfl (by decide) rfl,
   by decide⟩

/-- C8: fetch rejects with a DownloadError — and produces no resolved
value — on a network-level failure, on a non-success HTTP status, and on a
local write failure, in a single attempt. -/
theorem fetch_failure_modes (w : DownloadWorld) (url destinationDir : String) :
    (w.http url = .netFailure →
      fetch w url destinationDir = .error .network) ∧
    (∀ status : Nat, w.http url = .reply status → isSuccessStatus status = false →
      fetch w url destinationDir = .error (.httpStatus status)) ∧
    (∀ status : Nat, w.http url = .reply status → isSuccessStatus status = true →
      w.dirWritable destinationDir = false →
      fetch w url destinationDir = .error .writeFailure) := by
  refine ⟨?_, ?_, ?_⟩
  · intro h
    simp [fetch, h]
  · intro status h hs
    simp [fetch, h, hs]
  · intro status h hs hd
    simp [fetch, h, hs, hd]

theorem fetch_failure_modes_witness :
    fetch ⟨fun _ => .netFailure, fun _ => true⟩ "http://h/x.tgz" "/d" =
      .error .network ∧
    fetch ⟨fun _ => .reply 404, fun _ => true⟩ "http://h/x.tgz" "/d" =
      .error (.httpStatus 404) ∧
    fetch ⟨fun _ => .reply 200, fun _ => false⟩ "http://h/x.tgz" "/d" =
      .error .writeFailure :=
  ⟨(fetch_failure_modes ⟨fun _ => .netFailure, fun _ => true⟩
      "http://h/x.tgz" "/d").1 rfl,
   (fetch_failure_modes ⟨fun _ => .reply 404, fun _ => true⟩
      "http://h/x.tgz" "/d").2.1 404 rfl (by decide),
   (fetch_failure_modes ⟨fun _ => .reply 200, fun _ => false⟩
      "http://h/x.tgz" "/d").2.2 200 rfl (by decide) rfl⟩
